import Mathlib

/-!
Shallow embedding of `pyboostcard/selections.py`.

Numeric buffers in the source are numpy float arrays; here a float is
`Option ℚ` with `none` playing the role of IEEE NaN (the only float
behaviour the module relies on is NaN's absorbing non-comparability,
which the comparison functions below encode explicitly).  A numpy array
is a `List F`; every numpy operation used by the source is elementwise,
so array operations are embedded as `List.map` / `List.zipWith` of the
elementwise functions.
-/

/-- A Python float: `none` is NaN, `some q` an ordinary (rational) value. -/
abbrev F := Option ℚ

/-- The NaN float (`np.nan`). -/
def nanF : F := none

/-- `np.isnan`, elementwise. -/
def isnan (x : F) : Bool := x.isNone

/-- IEEE `==` on floats: NaN is equal to nothing, not even itself. -/
def floatEq : F → F → Bool
  | some a, some b => a == b
  | _, _ => false

/-- IEEE `!=` on floats: the negation of IEEE `==`, so NaN `!=` anything
is `true` (this is what makes the source's `value != np.nan` test vacuous). -/
def floatNe (a b : F) : Bool := !(floatEq a b)

/-!
Masked comparators.  `Interval.in_selection` compares
`np.ma.masked_invalid(x)` against a plain bound: a NaN (masked) element
satisfies neither comparison, a valid element compares normally.
These are the four entries `op.gt`, `op.ge`, `op.lt`, `op.le` used by
`Interval.testmap`.
-/

/-- `operator.gt` on a masked float vs a bound: NaN never satisfies it. -/
def op_gt : F → ℚ → Bool
  | some v, c => decide (v > c)
  | none, _ => false

/-- `operator.ge` on a masked float vs a bound: NaN never satisfies it. -/
def op_ge : F → ℚ → Bool
  | some v, c => decide (v ≥ c)
  | none, _ => false

/-- `operator.lt` on a masked float vs a bound: NaN never satisfies it. -/
def op_lt : F → ℚ → Bool
  | some v, c => decide (v < c)
  | none, _ => false

/-- `operator.le` on a masked float vs a bound: NaN never satisfies it. -/
def op_le : F → ℚ → Bool
  | some v, c => decide (v ≤ c)
  | none, _ => false

/-- The closed variant set of `Selection` subclasses.  Field layout per
variant follows the Python constructors: `Interval` stores its (sorted)
value pair, its `Bounds` pair of closed-flags, `order` and validated
`mono`; `Override` stores the override constant (a float, so possibly
NaN) and `order`; `Missing` and `Identity` store only `order`.
`order` and `mono` are numbers (Python `int`/`float`), embedded as ℚ. -/
inductive Selection : Type where
  | identity (order : ℚ)
  | interval (values : ℚ × ℚ) (bounds : Bool × Bool) (order : ℚ) (mono : ℚ)
  | override (override : F) (order : ℚ)
  | missing (order : ℚ)
deriving DecidableEq

/-- The per-variant class attribute `priority`:
Interval=0, Override=1, Missing=2, Identity=100. -/
def Selection.priority : Selection → Int
  | .interval .. => 0
  | .override .. => 1
  | .missing .. => 2
  | .identity .. => 100

/-- The stored `order` field of a selection. -/
def Selection.order : Selection → ℚ
  | .identity o => o
  | .interval _ _ o _ => o
  | .override _ o => o
  | .missing o => o

/-- `Interval.testmap`: the fixed 4-entry table from the pair of
closed-bound flags to the pair (low-comparator, high-comparator). -/
def Selection.testmap : Bool × Bool → (F → ℚ → Bool) × (F → ℚ → Bool)
  | (false, false) => (op_gt, op_lt)
  | (false, true) => (op_gt, op_le)
  | (true, false) => (op_ge, op_lt)
  | (true, true) => (op_ge, op_le)

/-- `in_selection`, elementwise.  Identity: always true.  Interval:
mask NaN as invalid, then apply the comparator pair from `testmap` to
the low and high stored values.  Override: IEEE equality with the
stored constant and an explicit not-NaN guard.  Missing: `np.isnan`. -/
def Selection.in_selection (s : Selection) (x : F) : Bool :=
  match s with
  | .identity _ => true
  | .interval values bounds _ _ =>
      let tests := Selection.testmap bounds
      tests.1 x values.1 && tests.2 x values.2
  | .override c _ => floatEq x c && !(isnan x)
  | .missing _ => isnan x

/-- `in_selection` applied to a whole buffer (numpy broadcasts it
elementwise). -/
def Selection.in_selection_buf (s : Selection) (x : List F) : List Bool :=
  x.map s.in_selection

/-- The third component of the sort key: a float that is either
`-np.inf` or an interval's low bound. -/
inductive XFloat : Type where
  | neginf
  | val (q : ℚ)
deriving DecidableEq

/-- Strict `<` on the sort-key float component: `-inf` is below every
value. -/
def XFloat.lt : XFloat → XFloat → Bool
  | .neginf, .neginf => false
  | .neginf, .val _ => true
  | .val _, .neginf => false
  | .val a, .val b => decide (a < b)

/-- `sort_value`: the derived key `(priority, order, representative)`.
The base-class property yields `(priority, order, -inf)`; `Interval`
overrides the representative with its stored low bound. -/
def Selection.sort_value (s : Selection) : Int × ℚ × XFloat :=
  match s with
  | .interval values _ o _ => (s.priority, o, .val values.1)
  | _ => (s.priority, s.order, .neginf)

/-- Lexicographic strict comparison of two sort keys, as Python compares
tuples. -/
def keyLt (a b : Int × ℚ × XFloat) : Bool :=
  a.1 < b.1 || (a.1 = b.1 && (a.2.1 < b.2.1 || (a.2.1 = b.2.1 && XFloat.lt a.2.2 b.2.2)))

/-- Stable insertion of a selection into a key-sorted list: `a` goes in
front of the first element not strictly below it, so elements with equal
keys keep their relative input order (Python's sort is stable). -/
def insertByKey (a : Selection) : List Selection → List Selection
  | [] => [a]
  | b :: bs => if keyLt b.sort_value a.sort_value then b :: insertByKey a bs else a :: b :: bs

/-- `sorted(selections, key=sort_value)`: stable sort ascending by the
derived key. -/
def sortSelections : List Selection → List Selection
  | [] => []
  | a :: as => insertByKey a (sortSelections as)

/-- `FittedSelection`: a selection paired with an optional fill value.
`value = none` is Python `None` (pass through the input); `value = some
nanF` is the NaN "not yet fit" sentinel. -/
structure FittedSelection : Type where
  selection : Selection
  value : Option F
deriving DecidableEq

/-- The elementwise body of `FittedSelection.transform`:
`replace = x if value is None else value`, then
`np.where(in_selection(x) & np.isnan(result), replace, result)`. -/
def coalesce (fs : FittedSelection) (xi ri : F) : F :=
  let replace := match fs.value with
    | none => xi
    | some v => v
  if fs.selection.in_selection xi && isnan ri then replace else ri

/-- `FittedSelection.transform`: fold the selection's contribution into
the shared result buffer, touching only positions that match and are
still unset (NaN). -/
def FittedSelection.transform (fs : FittedSelection) (x result : List F) : List F :=
  List.zipWith (coalesce fs) x result

/-- `FittedSelection.sort_value` delegates to the wrapped selection. -/
def FittedSelection.sort_value (fs : FittedSelection) : Int × ℚ × XFloat :=
  fs.selection.sort_value

/-- `FittedSelection.fitted`: the source's
`(self.value is not None) and (self.value != np.nan)`, with the second
conjunct the IEEE float inequality. -/
def FittedSelection.fitted (fs : FittedSelection) : Bool :=
  match fs.value with
  | none => false
  | some v => floatNe v nanF

/-- The Python exception kinds this module can raise. -/
inductive PyError : Type where
  | valueError
  | typeError
  | keyError
  | ioError
  | jsonDecodeError
deriving DecidableEq

/-- `Selection.bounds_from_string`: the 4-token map from a bounds string
to the pair of closed-flags; anything else raises `ValueError`. -/
def Selection.bounds_from_string (chars : String) : Except PyError (Bool × Bool) :=
  if chars = "[]" then .ok (true, true)
  else if chars = "(]" then .ok (false, true)
  else if chars = "[)" then .ok (true, false)
  else if chars = "()" then .ok (false, false)
  else .error .valueError

/-- The `mono` setter's validation: a value outside {-1, 0, 1} raises
`ValueError`, otherwise the value is accepted. -/
def validate_mono (v : ℚ) : Except PyError ℚ :=
  if v = -1 ∨ v = 0 ∨ v = 1 then .ok v else .error .valueError

/-- `Interval.__init__`: stores `tuple(sorted(values))` (the two bound
values in ascending order), the bounds flags, the order, and the
setter-validated monotonicity. -/
def mkInterval (values : ℚ × ℚ) (bounds : Bool × Bool) (order : ℚ) (mono : ℚ) :
    Except PyError Selection :=
  match validate_mono mono with
  | .error e => .error e
  | .ok m =>
      let sortedValues := if values.2 < values.1 then (values.2, values.1) else values
      .ok (.interval sortedValues bounds order m)

/-- Mutating `Interval.mono` through its validated setter: validation
first, then the field update (non-Interval selections have no such
field and are returned unchanged; the source setter exists only on
`Interval`). -/
def set_mono (s : Selection) (v : ℚ) : Except PyError Selection :=
  match validate_mono v with
  | .error e => .error e
  | .ok m =>
      match s with
      | .interval values bounds o _ => .ok (.interval values bounds o m)
      | other => .ok other

/-- `Identity.__init__`: ignores the caller's order and stores 0. -/
def mkIdentity (_order : ℚ) : Selection := .identity 0

/-- `Override.__init__`. -/
def mkOverride (override : F) (order : ℚ) : Selection := .override override order

/-- `Missing.__init__`. -/
def mkMissing (order : ℚ) : Selection := .missing order

/-!
Deserialization.  `json.loads` parses the document and applies
`Selection.from_dict` as `object_hook` to every decoded object, bottom
up.  `JValue` is a decoded JSON value before the hook; `HValue` is a
value after the hook, in which every object has been replaced by the
`Selection` built from it.
-/

/-- A decoded JSON value, before the object hook runs. -/
inductive JValue : Type where
  | null
  | bool (b : Bool)
  | num (q : ℚ)
  | str (s : String)
  | arr (xs : List JValue)
  | obj (fields : List (String × JValue))

/-- A decoded value after `object_hook=Selection.from_dict` has replaced
every object by a `Selection`. -/
inductive HValue : Type where
  | null
  | bool (b : Bool)
  | num (q : ℚ)
  | str (s : String)
  | arr (xs : List HValue)
  | sel (s : Selection)

/-- Python `d[key]` on a decoded object: a missing key raises `KeyError`. -/
def getField (d : List (String × HValue)) (k : String) : Except PyError HValue :=
  match d.lookup k with
  | some v => .ok v
  | none => .error .keyError

/-- `Selection.from_dict`: dispatch on the `type` discriminator,
construct the matching variant from its fields, and raise `ValueError`
for any unrecognised discriminator.  Field shapes the Python runtime
would choke on (wrong container or number shapes) surface as
`TypeError`. -/
def Selection.from_dict (d : List (String × HValue)) : Except PyError Selection :=
  match getField d "type" with
  | .error e => .error e
  | .ok (.str t) =>
      if t = "interval" then
        match getField d "values", getField d "bounds", getField d "order", getField d "mono" with
        | .ok (.arr [.num a, .num b]), .ok (.str bs), .ok (.num o), .ok (.num m) =>
            match Selection.bounds_from_string bs with
            | .error e => .error e
            | .ok bounds => mkInterval (a, b) bounds o m
        | .error e, _, _, _ => .error e
        | _, .error e, _, _ => .error e
        | _, _, .error e, _ => .error e
        | _, _, _, .error e => .error e
        | _, _, _, _ => .error .typeError
      else if t = "override" then
        match getField d "override", getField d "order" with
        | .ok (.num c), .ok (.num o) => .ok (mkOverride (some c) o)
        | .error e, _ => .error e
        | _, .error e => .error e
        | _, _ => .error .typeError
      else if t = "missing" then
        match getField d "order" with
        | .ok (.num o) => .ok (mkMissing o)
        | .error e => .error e
        | _ => .error .typeError
      else .error .valueError
  | .ok _ => .error .valueError

mutual

/-- The object hook applied bottom-up to a decoded document: every
object becomes the `Selection` built by `from_dict` (whose exception,
if any, propagates); other values are rebuilt around the hooked
children. -/
def hookEval : JValue → Except PyError HValue
  | .null => .ok .null
  | .bool b => .ok (.bool b)
  | .num q => .ok (.num q)
  | .str s => .ok (.str s)
  | .arr xs =>
      match hookEvalList xs with
      | .error e => .error e
      | .ok ys => .ok (.arr ys)
  | .obj fields =>
      match hookEvalFields fields with
      | .error e => .error e
      | .ok gs =>
          match Selection.from_dict gs with
          | .error e => .error e
          | .ok s => .ok (.sel s)

/-- Hook a list of decoded array elements. -/
def hookEvalList : List JValue → Except PyError (List HValue)
  | [] => .ok []
  | v :: vs =>
      match hookEval v, hookEvalList vs with
      | .ok h, .ok hs => .ok (h :: hs)
      | .error e, _ => .error e
      | _, .error e => .error e

/-- Hook the field values of a decoded object. -/
def hookEvalFields : List (String × JValue) → Except PyError (List (String × HValue))
  | [] => .ok []
  | (k, v) :: rest =>
      match hookEval v, hookEvalFields rest with
      | .ok h, .ok hs => .ok ((k, h) :: hs)
      | .error e, _ => .error e
      | _, .error e => .error e

end

/-!
A model of the textual JSON front end of `json.loads` (Python's
standard decoder, an external dependency of the source), sufficient for
documents made of `null`, booleans, numbers without exponents, plain
strings without escapes, arrays and objects.  Any input it cannot
decode fails with `JSONDecodeError`, as the standard decoder does
(e.g. on the empty document).  Recursion is fuelled; the fuel supplied
by `loads` always suffices since every nested parse sits after at least
one consumed character.
-/

/-- The `\x7b` character (left brace). -/
def braceOpen : Char := '\x7b'

/-- The `\x7d` character (right brace). -/
def braceClose : Char := '\x7d'

/-- Skip JSON whitespace. -/
def skipWs : List Char → List Char
  | c :: cs => if c = ' ' ∨ c = '\n' ∨ c = '\t' ∨ c = '\r' then skipWs cs else c :: cs
  | [] => []

/-- Split off a maximal run of leading decimal digits. -/
def spanDigits : List Char → List Char × List Char
  | [] => ([], [])
  | c :: cs =>
      if c.isDigit then
        let p := spanDigits cs
        (c :: p.1, p.2)
      else ([], c :: cs)

/-- Numeric value of a digit run. -/
def digitsToNat (ds : List Char) : Nat :=
  ds.foldl (fun n c => 10 * n + (c.toNat - '0'.toNat)) 0

/-- Decode a JSON number (optional minus, digits, optional fraction). -/
def parseNumber (cs : List Char) : Except PyError (ℚ × List Char) :=
  let signed := cs.head? = some '-'
  let cs1 := if signed then cs.tail else cs
  let ip := spanDigits cs1
  if ip.1 = [] then .error .jsonDecodeError
  else
    let intPart : ℚ := (digitsToNat ip.1 : ℚ)
    match ip.2 with
    | '.' :: cs2 =>
        let fp := spanDigits cs2
        if fp.1 = [] then .error .jsonDecodeError
        else
          let q : ℚ := intPart + (digitsToNat fp.1 : ℚ) / ((10 : ℚ) ^ fp.1.length)
          .ok (if signed then -q else q, fp.2)
    | rest => .ok (if signed then -intPart else intPart, rest)

/-- Decode the body of a JSON string literal after its opening quote
(plain characters only; an escape or an unterminated literal is a
decode error in this model). -/
def parseStringBody : List Char → Except PyError (List Char × List Char)
  | [] => .error .jsonDecodeError
  | c :: cs =>
      if c = '"' then .ok ([], cs)
      else if c = '\\' then .error .jsonDecodeError
      else
        match parseStringBody cs with
        | .error e => .error e
        | .ok (body, rest) => .ok (c :: body, rest)

/-- Match an expected literal keyword tail (`ull`, `rue`, `alse`). -/
def expectChars : List Char → List Char → Except PyError (List Char)
  | [], cs => .ok cs
  | e :: es, c :: cs => if c = e then expectChars es cs else .error .jsonDecodeError
  | _ :: _, [] => .error .jsonDecodeError

mutual

/-- Decode one JSON value from the character stream. -/
def parseValue : Nat → List Char → Except PyError (JValue × List Char)
  | 0, _ => .error .jsonDecodeError
  | fuel + 1, cs =>
      match skipWs cs with
      | [] => .error .jsonDecodeError
      | c :: rest =>
          if c = 'n' then
            match expectChars ['u', 'l', 'l'] rest with
            | .error e => .error e
            | .ok r => .ok (.null, r)
          else if c = 't' then
            match expectChars ['r', 'u', 'e'] rest with
            | .error e => .error e
            | .ok r => .ok (.bool true, r)
          else if c = 'f' then
            match expectChars ['a', 'l', 's', 'e'] rest with
            | .error e => .error e
            | .ok r => .ok (.bool false, r)
          else if c = '"' then
            match parseStringBody rest with
            | .error e => .error e
            | .ok (body, r) => .ok (.str (String.mk body), r)
          else if c = '[' then
            match skipWs rest with
            | ']' :: r => .ok (.arr [], r)
            | r2 => match parseArrayItems fuel r2 with
              | .error e => .error e
              | .ok (xs, r) => .ok (.arr xs, r)
          else if c = braceOpen then
            match skipWs rest with
            | d :: r =>
                if d = braceClose then .ok (.obj [], r)
                else match parseObjectItems fuel (d :: r) with
                  | .error e => .error e
                  | .ok (fs, r2) => .ok (.obj fs, r2)
            | [] => .error .jsonDecodeError
          else if c = '-' ∨ c.isDigit then
            match parseNumber (c :: rest) with
            | .error e => .error e
            | .ok (q, r) => .ok (.num q, r)
          else .error .jsonDecodeError

/-- Decode the comma-separated items of a non-empty array, up to and
including the closing bracket. -/
def parseArrayItems : Nat → List Char → Except PyError (List JValue × List Char)
  | 0, _ => .error .jsonDecodeError
  | fuel + 1, cs =>
      match parseValue fuel cs with
      | .error e => .error e
      | .ok (v, r) =>
          match skipWs r with
          | ',' :: r2 =>
              match parseArrayItems fuel r2 with
              | .error e => .error e
              | .ok (vs, r3) => .ok (v :: vs, r3)
          | ']' :: r2 => .ok ([v], r2)
          | _ => .error .jsonDecodeError

/-- Decode the comma-separated members of a non-empty object, up to and
including the closing brace. -/
def parseObjectItems : Nat → List Char → Except PyError (List (String × JValue) × List Char)
  | 0, _ => .error .jsonDecodeError
  | fuel + 1, cs =>
      match skipWs cs with
      | '"' :: r =>
          match parseStringBody r with
          | .error e => .error e
          | .ok (key, r1) =>
              match skipWs r1 with
              | ':' :: r2 =>
                  match parseValue fuel r2 with
                  | .error e => .error e
                  | .ok (v, r3) =>
                      match skipWs r3 with
                      | ',' :: r4 =>
                          match parseObjectItems fuel r4 with
                          | .error e => .error e
                          | .ok (fs, r5) => .ok ((String.mk key, v) :: fs, r5)
                      | d :: r4 =>
                          if d = braceClose then .ok ([(String.mk key, v)], r4)
                          else .error .jsonDecodeError
                      | [] => .error .jsonDecodeError
              | _ => .error .jsonDecodeError
      | _ => .error .jsonDecodeError

end

/-- `json.loads(s, object_hook=Selection.from_dict)`: decode the whole
document (trailing junk is a decode error) and run the object hook. -/
def loadsHooked (s : String) : Except PyError HValue :=
  match parseValue (s.length + 1) s.data with
  | .error e => .error e
  | .ok (v, rest) =>
      if skipWs rest = [] then hookEval v else .error .jsonDecodeError

/-- `Selection.from_json`: parse with the hook; a `None` result (a null
document) raises `IOError`; the decoded value is returned otherwise.
(The Python annotation promises a `Selection`, but nothing enforces it
for non-object documents; a well-formed record document yields
`HValue.sel` of the constructed selection.) -/
def Selection.from_json (s : String) : Except PyError HValue :=
  match loadsHooked s with
  | .error e => .error e
  | .ok .null => .error .ioError
  | .ok v => .ok v

/-!
Helper lemmas about the coalescer.
-/

/-- A position whose result entry is already set (not NaN) is returned
unchanged by the elementwise coalesce. -/
theorem coalesce_of_not_nan (fs : FittedSelection) (xi ri : F) (h : isnan ri = false) :
    coalesce fs xi ri = ri := by
  simp [coalesce, h]

/-- The elementwise coalesce is idempotent in the result argument. -/
theorem coalesce_idem (fs : FittedSelection) (xi ri : F) :
    coalesce fs xi (coalesce fs xi ri) = coalesce fs xi ri := by
  unfold coalesce
  cases hsel : fs.selection.in_selection xi <;> cases hri : isnan ri <;>
    simp [hsel, hri]

/-- Fusing two zips over the same left list. -/
theorem zipWith_same_left (f g : F → F → F) :
    ∀ (x r : List F), List.zipWith f x (List.zipWith g x r) =
      List.zipWith (fun a b => f a (g a b)) x r
  | [], _ => by simp
  | _ :: _, [] => by simp
  | a :: as, b :: bs => by
      simp only [List.zipWith]
      exact congrArg _ (zipWith_same_left f g as bs)

/-- C1.  `FittedSelection.transform` never changes an already-set
position: with same-shape buffers, every index whose result entry is
not the NaN sentinel keeps exactly that entry; and re-running
`transform` over an already-coalesced buffer changes nothing at all. -/
theorem transform_first_match_wins :
    (∀ (fs : FittedSelection) (x result : List F) (i : ℕ) (ri : F),
        x.length = result.length → result[i]? = some ri → isnan ri = false →
        (fs.transform x result)[i]? = some ri)
    ∧ (∀ (fs : FittedSelection) (x result : List F),
        fs.transform x (fs.transform x result) = fs.transform x result) := by
  constructor
  · intro fs x result i ri hlen hri hnan
    have hi : i < result.length := by
      by_contra hge
      rw [List.getElem?_eq_none (le_of_not_lt hge)] at hri
      exact Option.noConfusion hri
    have hxi : x[i]? = some x[i] := List.getElem?_eq_getElem (by rw [hlen]; exact hi)
    rw [FittedSelection.transform, List.getElem?_zipWith_eq_some]
    exact ⟨x[i], ri, hxi, hri, coalesce_of_not_nan fs _ _ hnan⟩
  · intro fs x result
    rw [FittedSelection.transform, FittedSelection.transform,
      zipWith_same_left (coalesce fs) (coalesce fs) x result]
    have hfun : (fun a b => coalesce fs a (coalesce fs a b)) = coalesce fs :=
      funext fun a => funext fun b => coalesce_idem fs a b
    rw [hfun]

/-- Witness for C1 at concrete buffers. -/
theorem transform_first_match_wins_witness :
    ((⟨Selection.missing 0, some (some 5)⟩ : FittedSelection).transform
        [some 1, none] [some 3, none])[0]? = some (some 3) :=
  transform_first_match_wins.1 _ [some 1, none] [some 3, none] 0 (some 3) rfl rfl rfl

/-- C2.  `Interval.in_selection` matches exactly the comparator pair
selected by the closed-flags, so an endpoint is matched iff its side is
closed; `Interval([1,5], closed, open)` matches 1 and 3, excludes 5. -/
theorem interval_boundary_semantics :
    (∀ (lo hi : ℚ) (bl bh : Bool) (o m v : ℚ),
        (Selection.interval (lo, hi) (bl, bh) o m).in_selection (some v) = true ↔
          ((if bl = true then lo ≤ v else lo < v) ∧ (if bh = true then v ≤ hi else v < hi)))
    ∧ (Selection.interval (1, 5) (true, false) 0 0).in_selection (some 1) = true
    ∧ (Selection.interval (1, 5) (true, false) 0 0).in_selection (some 3) = true
    ∧ (Selection.interval (1, 5) (true, false) 0 0).in_selection (some 5) = false := by
  refine ⟨?_, by decide, by decide, by decide⟩
  intro lo hi bl bh o m v
  cases bl <;> cases bh <;>
    simp [Selection.in_selection, Selection.testmap, op_gt, op_ge, op_lt, op_le]

/-- C3.  NaN handling is uniform: an Interval never matches NaN for any
bounds, an Override never matches NaN even with a NaN constant, and
Missing matches exactly the NaN elements. -/
theorem in_selection_nan_uniform :
    (∀ (values : ℚ × ℚ) (bounds : Bool × Bool) (o m : ℚ),
        (Selection.interval values bounds o m).in_selection nanF = false)
    ∧ (∀ (c : F) (o : ℚ), (Selection.override c o).in_selection nanF = false)
    ∧ (∀ (o : ℚ), (Selection.missing o).in_selection nanF = true)
    ∧ (∀ (v : ℚ) (o : ℚ), (Selection.missing o).in_selection (some v) = false) := by
  refine ⟨?_, ?_, fun o => rfl, fun v o => rfl⟩
  · rintro ⟨lo, hi⟩ ⟨bl, bh⟩ o m
    cases bl <;> cases bh <;> rfl
  · intro c o
    cases c <;> rfl

/-- C4.  The sort key of every variant is `(priority, order,
representative)` with the fixed priorities and representatives, and
sorting any permutation of the four-variant example yields
Interval, Override, Missing, Identity. -/
theorem sort_key_and_sorting :
    (∀ (values : ℚ × ℚ) (bounds : Bool × Bool) (o m : ℚ),
        (Selection.interval values bounds o m).sort_value = (0, o, XFloat.val values.1))
    ∧ (∀ (c : F) (o : ℚ), (Selection.override c o).sort_value = (1, o, XFloat.neginf))
    ∧ (∀ (o : ℚ), (Selection.missing o).sort_value = (2, o, XFloat.neginf))
    ∧ (∀ (o : ℚ), (Selection.identity o).sort_value = (100, o, XFloat.neginf))
    ∧ (∀ l : List Selection,
        l.Perm [mkMissing 0, Selection.interval (0, 5) (false, false) 1 0,
          mkOverride (some 10) 2, mkIdentity 3] →
        sortSelections l = [Selection.interval (0, 5) (false, false) 1 0,
          mkOverride (some 10) 2, mkMissing 0, mkIdentity 3]) := by
  refine ⟨fun values bounds o m => rfl, fun c o => rfl, fun o => rfl, fun o => rfl, ?_⟩
  intro l hl
  have key : ∀ l' ∈ ([mkMissing 0, Selection.interval (0, 5) (false, false) 1 0,
      mkOverride (some 10) 2, mkIdentity 3] : List Selection).permutations',
      sortSelections l' = [Selection.interval (0, 5) (false, false) 1 0,
        mkOverride (some 10) 2, mkMissing 0, mkIdentity 3] := by decide
  exact key l (List.mem_permutations'.mpr hl)

/-- Witness for C4 at a concrete input permutation. -/
theorem sort_key_and_sorting_witness :
    sortSelections [mkIdentity 3, mkOverride (some 10) 2,
        Selection.interval (0, 5) (false, false) 1 0, mkMissing 0] =
      [Selection.interval (0, 5) (false, false) 1 0, mkOverride (some 10) 2,
        mkMissing 0, mkIdentity 3] :=
  sort_key_and_sorting.2.2.2.2 _ (by decide)

/-- C5.  Folding the three sorted fitted selections over the all-NaN
result buffer for input `[1, 3, 10, NaN, 7]` yields
`[1, 3, -1, 0, unset]`; position of 7 stays the NaN sentinel. -/
theorem fold_end_to_end :
    ([({ selection := Selection.interval (0, 5) (true, false) 0 0, value := none } : FittedSelection),
        { selection := Selection.override (some 10) 1, value := some (some (-1)) },
        { selection := Selection.missing 2, value := some (some 0) }].foldl
      (fun acc fs => fs.transform [some 1, some 3, some 10, none, some 7] acc)
      (List.replicate 5 nanF))
      = [some 1, some 3, some (-1), some 0, none] := by decide

/-- C6.  `from_dict` on the reversed-bounds interval record builds the
interval with ascending stored bounds (10, 20); `mkInterval` always
stores its two values ascending; that interval matches both endpoints. -/
theorem from_dict_interval_round_trip :
    (Selection.from_dict [("type", HValue.str "interval"),
        ("values", HValue.arr [HValue.num 20, HValue.num 10]),
        ("bounds", HValue.str "[]"), ("order", HValue.num 0), ("mono", HValue.num 0)]
      = .ok (Selection.interval (10, 20) (true, true) 0 0))
    ∧ (∀ (a b : ℚ) (bounds : Bool × Bool) (o m : ℚ) (s : Selection),
        mkInterval (a, b) bounds o m = .ok s →
        ∃ lo hi, lo ≤ hi ∧ s = Selection.interval (lo, hi) bounds o m)
    ∧ (Selection.interval (10, 20) (true, true) 0 0).in_selection (some 10) = true
    ∧ (Selection.interval (10, 20) (true, true) 0 0).in_selection (some 20) = true := by
  refine ⟨rfl, ?_, by decide, by decide⟩
  intro a b bounds o m s h
  by_cases hm : m = -1 ∨ m = 0 ∨ m = 1
  · simp only [mkInterval, validate_mono, if_pos hm] at h
    by_cases hba : b < a
    · refine ⟨b, a, le_of_lt hba, ?_⟩
      simp only [if_pos hba] at h
      exact (Except.ok.inj h).symm
    · refine ⟨a, b, le_of_not_lt hba, ?_⟩
      simp only [if_neg hba] at h
      exact (Except.ok.inj h).symm
  · simp only [mkInterval, validate_mono, if_neg hm] at h
    exact Except.noConfusion h

/-- Witness for C6: the ascending-storage fact applied to the reversed
pair (20, 10). -/
theorem from_dict_interval_round_trip_witness :
    ∃ lo hi, lo ≤ hi ∧ Selection.interval (10, 20) (true, true) 0 0
      = Selection.interval (lo, hi) (true, true) 0 0 :=
  from_dict_interval_round_trip.2.1 20 10 (true, true) 0 0 _ rfl

/-- C7 (code evaluation).  `FittedSelection.fitted` with the NaN
"not yet fit" sentinel evaluates to `true` — the IEEE comparison
`value != np.nan` is true for every float, NaN included — while the
claim (and §9 of the spec) intend `false` there.  `None` still reports
`false` and ordinary numeric fills report `true`. -/
theorem fitted_nan_sentinel_true :
    FittedSelection.fitted ⟨Selection.missing 0, some nanF⟩ = true
    ∧ FittedSelection.fitted ⟨Selection.missing 0, none⟩ = false
    ∧ FittedSelection.fitted ⟨Selection.missing 0, some (some 5)⟩ = true :=
  ⟨rfl, rfl, rfl⟩

/-- C8.  Construction fails closed: every bounds token outside the four
raises `ValueError`; constructing or mutating monotonicity outside
{-1, 0, 1} raises `ValueError`; every unrecognised `type` discriminator
raises `ValueError`. -/
theorem construction_fails_closed :
    (∀ s : String, s ≠ "[]" → s ≠ "(]" → s ≠ "[)" → s ≠ "()" →
        Selection.bounds_from_string s = .error .valueError)
    ∧ (∀ m : ℚ, m ≠ -1 → m ≠ 0 → m ≠ 1 →
        (∀ (values : ℚ × ℚ) (bounds : Bool × Bool) (o : ℚ),
            mkInterval values bounds o m = .error .valueError)
        ∧ (∀ s : Selection, set_mono s m = .error .valueError))
    ∧ (∀ (d : List (String × HValue)) (t : String),
        getField d "type" = .ok (.str t) → t ≠ "interval" → t ≠ "override" → t ≠ "missing" →
        Selection.from_dict d = .error .valueError) := by
  refine ⟨?_, ?_, ?_⟩
  · intro s h1 h2 h3 h4
    simp [Selection.bounds_from_string, h1, h2, h3, h4]
  · intro m h1 h2 h3
    constructor
    · intro values bounds o
      simp [mkInterval, validate_mono, h1, h2, h3]
    · intro s
      simp [set_mono, validate_mono, h1, h2, h3]
  · intro d t hget h1 h2 h3
    simp [Selection.from_dict, hget, h1, h2, h3]

/-- Witness for C8 at the spec's concrete invalid inputs. -/
theorem construction_fails_closed_witness :
    Selection.bounds_from_string "<>" = .error .valueError
    ∧ mkInterval (1, 5) (true, true) 0 2 = .error .valueError
    ∧ set_mono (Selection.interval (1, 5) (true, true) 0 0) 2 = .error .valueError
    ∧ Selection.from_dict [("type", HValue.str "bogus")] = .error .valueError := by
  refine ⟨construction_fails_closed.1 "<>" (by decide) (by decide) (by decide) (by decide),
    (construction_fails_closed.2.1 2 (by decide) (by decide) (by decide)).1 (1, 5) (true, true) 0,
    (construction_fails_closed.2.1 2 (by decide) (by decide) (by decide)).2 _,
    construction_fails_closed.2.2 _ "bogus" rfl (by decide) (by decide) (by decide)⟩

/-- C9 counterexample.  On the empty document `from_json` propagates
the decoder's `JSONDecodeError`, not an I/O-kind error. -/
theorem from_json_empty_error_kind :
    Selection.from_json "" = .error .jsonDecodeError
    ∧ Selection.from_json "" ≠ .error .ioError := by
  refine ⟨rfl, fun h => ?_⟩
  have h' : (Except.error PyError.jsonDecodeError : Except PyError HValue)
      = .error .ioError := h
  injection h' with h''
  exact PyError.noConfusion h''

/-- C9 amended.  A null document (parse yields `None`) raises the
I/O-kind error; an unparseable (empty) document propagates the decode
error; a well-formed interval record document yields its Selection. -/
theorem from_json_amended_outcomes :
    Selection.from_json "null" = .error .ioError
    ∧ Selection.from_json "" = .error .jsonDecodeError
    ∧ Selection.from_json
        "\x7b\"type\":\"interval\", \"bounds\":\"[]\", \"values\": [10, 20], \"order\":0, \"mono\":0\x7d"
      = .ok (.sel (Selection.interval (10, 20) (true, true) 0 0)) :=
  ⟨rfl, rfl, rfl⟩

/-- C10.  The Identity constructor discards the caller's order: it
always stores 0, so every constructed Identity has sort key
`(100, 0, -inf)`. -/
theorem identity_ignores_order :
    (∀ n : ℚ, mkIdentity n = Selection.identity 0)
    ∧ (∀ n : ℚ, (mkIdentity n).order = 0)
    ∧ (∀ n : ℚ, (mkIdentity n).sort_value = (100, 0, XFloat.neginf)) :=
  ⟨fun _ => rfl, fun _ => rfl, fun _ => rfl⟩
